import Mathlib

/-!
Shallow embedding of `models/biformer_stl_nchw.py` (BB-ViT repository).

The file models, faithfully to the Python source:
  * attention-variant selection in `BiFormerBlock.__init__` (lines 29-35);
  * the block forward pass `BiFormerBlock.forward` (lines 49-64) and the
    MLP built in `BiFormerBlock.__init__` (lines 41-46);
  * the `channels_first` branch of `LayerNorm.forward` (lines 121-130);
  * the downsample/patch-embedding layers built in
    `nchwBiFormerSTL.__init__` (lines 186-203);
  * the stochastic-depth rate schedule (lines 208, 215);
  * the weight-initialization pass `_init_weights` (lines 231-238);
  * the classifier head (line 228) and `reset_classifier` (lines 247-249);
  * the top-level forward pass (lines 251-263), at value level with the
    external layer callables abstract, and a parallel shape semantics.

External collaborators (`nchwBRA`, `nchwAttentionLePE`, framework layer
kernels) are opaque parameters, as the repository itself treats them.
-/

namespace BBViT

/-! ### Attention-variant selection (`BiFormerBlock.__init__`, lines 29-35) -/

/-- The attention module stored in `self.attn`: either the routed
bi-level routing attention `nchwBRA` (recording the topk budget it was
constructed with) or the non-routed `nchwAttentionLePE`. -/
inductive AttnVariant where
  | nchwBRA (topk : Int)
  | nchwAttentionLePE
deriving DecidableEq, Repr

/-- Lines 29-35 of `BiFormerBlock.__init__`:
`if topk > 0: attn = nchwBRA(...) elif topk == -1: attn = nchwAttentionLePE(...)
else: raise ValueError('topk should >0 or =-1 !')`. -/
def selectAttn (topk : Int) : Except String AttnVariant :=
  if topk > 0 then .ok (.nchwBRA topk)
  else if topk = -1 then .ok .nchwAttentionLePE
  else .error "topk should >0 or =-1 !"

/-- Class default of the `topks` argument of `nchwBiFormerSTL.__init__`
(line 177): `topks = (1, 4, 16, -2)`. -/
def classDefaultTopks : List Int := [1, 4, 16, -2]

/-- Default of the registered factory `biformer_stl_nchw` (line 280):
`topks = (1, 4, 16, -1)`. -/
def factoryDefaultTopks : List Int := [1, 4, 16, -1]

/-! ### Weight initialization (`_init_weights`, lines 231-238) -/

/-- Symbolic description of how a parameter tensor is currently
initialized: untouched framework default, a draw of `trunc_normal_`
(std 0.02), or a constant fill by `nn.init.constant_`. -/
inductive InitState where
  | frameworkDefault
  | truncNormal
  | constVal (v : ℚ)
deriving DecidableEq, Repr

/-- Weight and (optional) bias of one module; `none` bias models
`m.bias is None`. -/
structure ModuleParams where
  weight : InitState
  bias : Option InitState
deriving DecidableEq, Repr

/-- The module kinds `_init_weights` can encounter while `self.apply`
walks the network: linear layers, 2-d convolutions, `nn.LayerNorm`
(subclass-included, e.g. timm `LayerNorm2d`), and anything else. -/
inductive MModule where
  | linear (p : ModuleParams)
  | conv2d (p : ModuleParams)
  | layerNorm (p : ModuleParams)
  | other
deriving DecidableEq, Repr

/-- `_init_weights` (lines 231-238): `isinstance(m, nn.Linear)` gets a
`trunc_normal_` weight and, when the bias exists, a zero bias;
`isinstance(m, nn.LayerNorm)` gets constant bias 0 and weight 1.0;
every other module (convolutions included) is left untouched. -/
def init_weights : MModule → MModule
  | .linear p => .linear ⟨.truncNormal, p.bias.map fun _ => .constVal 0⟩
  | .layerNorm _ => .layerNorm ⟨.constVal 1, some (.constVal 0)⟩
  | .conv2d p => .conv2d p
  | .other => .other

/-! ### Classifier head construction (line 228) and `reset_classifier`
(lines 247-249) -/

/-- The classifier head object: a linear layer with recorded
in/out widths, or `nn.Identity`. -/
inductive HeadDesc where
  | linear (in_features out_features : ℕ)
  | identity
deriving DecidableEq, Repr

/-- A Python value passed as the `in_features` argument of
`nn.Linear`: an integer, or (erroneously) a list of integers. -/
inductive PyVal where
  | int (n : ℕ)
  | list (l : List ℕ)
deriving DecidableEq, Repr

/-- `nn.Linear(in_features, out_features)`: the framework requires
`in_features` to be an integer; passing a list makes the internal
`torch.empty((out_features, in_features))` raise a `TypeError`. -/
def nnLinear (in_features : PyVal) (out_features : ℕ) : Except String HeadDesc :=
  match in_features with
  | .int n => .ok (.linear n out_features)
  | .list _ => .error "TypeError: empty() argument must be a tuple of ints, not list"

/-- Line 228 of `nchwBiFormerSTL.__init__`:
`self.head = nn.Linear(embed_dim[-1], num_classes) if num_classes > 0 else nn.Identity()`. -/
def initHead (embed_dim : List ℕ) (num_classes : ℕ) : Except String HeadDesc :=
  if 0 < num_classes then nnLinear (.int (embed_dim.getLastD 0)) num_classes
  else .ok .identity

/-- Lines 247-249, `reset_classifier`:
`self.head = nn.Linear(self.embed_dim, num_classes) if num_classes > 0 else nn.Identity()`.
Note the source passes `self.embed_dim` — the whole per-stage width
list set on line 183 — not `self.embed_dim[-1]`. -/
def reset_classifier (embed_dim : List ℕ) (num_classes : ℕ) : Except String HeadDesc :=
  if 0 < num_classes then nnLinear (.list embed_dim) num_classes
  else .ok .identity

/-! ### Downsample / patch-embedding layers (lines 186-203) -/

/-- One framework layer inside an `nn.Sequential` downsample module:
a 2-d convolution with its channel map, kernel and stride (square,
padding 0), or a normalization layer over `dim` channels. -/
inductive LayerDesc where
  | conv2d (in_ch out_ch k s : ℕ)
  | norm (dim : ℕ)
deriving DecidableEq, Repr

/-- Lines 186-203: `downsample_layers` as built in
`nchwBiFormerSTL.__init__` — the stem `Sequential(Conv2d(in_chans,
embed_dim[0], kernel 4, stride 4), norm(embed_dim[0]))` followed, for
`i in range(3)`, by `Sequential(norm(embed_dim[i]), Conv2d(embed_dim[i],
embed_dim[i+1], kernel 2, stride 2))`. -/
def downsampleLayers (in_chans : ℕ) (embed_dim : List ℕ) : List (List LayerDesc) :=
  [.conv2d in_chans (embed_dim.getD 0 0) 4 4, .norm (embed_dim.getD 0 0)] ::
  (List.range 3).map fun i =>
    [.norm (embed_dim.getD i 0), .conv2d (embed_dim.getD i 0) (embed_dim.getD (i+1) 0) 2 2]

/-! ### BiFormerBlock forward (lines 41-46 and 49-64) -/

/-- The callables a `BiFormerBlock` owns after construction. The two
normalization layers, the selected attention module, the `DropPath`
(or `nn.Identity`) wrapper and the three pieces of the `nn.Sequential`
MLP are framework/external modules, kept abstract over the tensor
type `T`. -/
structure BlockPrims (T : Type) where
  norm1 : T → T
  attn : T → T
  norm2 : T → T
  conv_expand : T → T
  gelu : T → T
  conv_contract : T → T
  drop_path : T → T

/-- Lines 42-45: `self.mlp = nn.Sequential(Conv2d(dim, mlp_ratio*dim,
kernel 1), GELU(), Conv2d(mlp_ratio*dim, dim, kernel 1))`. -/
def BlockPrims.mlp {T : Type} (p : BlockPrims T) : T → T :=
  fun x => p.conv_contract (p.gelu (p.conv_expand x))

/-- Lines 49-64, `BiFormerBlock.forward`:
`x = x + self.drop_path(self.attn(self.norm1(x)))` then
`x = x + self.drop_path(self.mlp(self.norm2(x)))`. -/
def BlockPrims.forward {T : Type} [Add T] (p : BlockPrims T) (x : T) : T :=
  let x1 := x + p.drop_path (p.attn (p.norm1 x))
  let x2 := x1 + p.drop_path (p.mlp (p.norm2 x1))
  x2

/-! ### Top-level forward pass (lines 251-263), value level -/

/-- A 4-d NCHW tensor: recorded sizes and a value map indexed by
(batch, channel, row, column). -/
structure DTensor where
  n : ℕ
  c : ℕ
  h : ℕ
  w : ℕ
  val : ℕ → ℕ → ℕ → ℕ → ℚ

/-- A 2-d (batch, channel) tensor, as produced by `x.mean([2, 3])`. -/
structure DVec where
  n : ℕ
  c : ℕ
  val : ℕ → ℕ → ℚ

/-- `x.mean([2, 3])` (line 261): the arithmetic mean over both spatial
axes, yielding one feature vector per batch element. -/
def meanHW (x : DTensor) : DVec where
  n := x.n
  c := x.c
  val := fun b ch =>
    (∑ i ∈ Finset.range x.h, ∑ j ∈ Finset.range x.w, x.val b ch i j) / (x.h * x.w)

/-- The top-level network at value level: the four downsample layers,
the four stages, the pre-head norm and the linear head are framework
module callables, abstract here; `num_classes` decides whether the
head at line 228 is the linear layer or `nn.Identity()`. -/
structure NetV where
  num_classes : ℕ
  downsample_layers : Fin 4 → DTensor → DTensor
  stages : Fin 4 → DTensor → DTensor
  norm : DTensor → DTensor
  headLinear : DVec → DVec

/-- Line 228: `self.head = nn.Linear(embed_dim[-1], num_classes) if
num_classes > 0 else nn.Identity()`, as the callable it leaves behind. -/
def NetV.head (net : NetV) : DVec → DVec :=
  if 0 < net.num_classes then net.headLinear else id

/-- Lines 251-256, `forward_features`: `for i in range(4): x =
downsample_layers[i](x); x = stages[i](x)`, then `x = self.norm(x)`. -/
def NetV.forward_features (net : NetV) (x : DTensor) : DTensor :=
  net.norm (([0, 1, 2, 3] : List (Fin 4)).foldl
    (fun y i => net.stages i (net.downsample_layers i y)) x)

/-- Lines 258-263, `forward`: `x = forward_features(x); x = x.mean([2,
3]); x = self.head(x)`. -/
def NetV.forward (net : NetV) (x : DTensor) : DVec :=
  net.head (meanHW (net.forward_features x))

/-! ### Shape semantics of the forward pass -/

/-- Shape of a 4-d NCHW tensor. -/
structure Shape4 where
  n : ℕ
  c : ℕ
  h : ℕ
  w : ℕ
deriving DecidableEq, Repr

/-- Shape of a 2-d (batch, channel) tensor. -/
structure Shape2 where
  n : ℕ
  c : ℕ
deriving DecidableEq, Repr

/-- Shape rule of `nn.Conv2d(in_ch, out_ch, kernel (k, k), stride
(s, s))` with zero padding: the input channel count must match and the
kernel must fit; each spatial size maps to `(size - k) / s + 1`. -/
def conv2dShape (in_ch out_ch k s : ℕ) (sh : Shape4) : Option Shape4 :=
  if sh.c = in_ch ∧ k ≤ sh.h ∧ k ≤ sh.w then
    some ⟨sh.n, out_ch, (sh.h - k) / s + 1, (sh.w - k) / s + 1⟩
  else none

/-- Shape rule of a channel normalization layer over `dim` channels:
requires a matching channel count and preserves the shape. -/
def normShape (dim : ℕ) (sh : Shape4) : Option Shape4 :=
  if sh.c = dim then some sh else none

/-- Shape rule of one layer of a downsample `nn.Sequential`. -/
def layerShape : LayerDesc → Shape4 → Option Shape4
  | .conv2d ic oc k s => conv2dShape ic oc k s
  | .norm d => normShape d

/-- Shape rule of an `nn.Sequential` of layers. -/
def seqShape (ls : List LayerDesc) (sh : Shape4) : Option Shape4 :=
  ls.foldl (fun acc l => acc.bind (layerShape l)) (some sh)

/-- Shape semantics of `forward_features` (lines 251-256): the four
constructed downsample layers are applied in order — the stage blocks
between them return a tensor of their input's shape, by the external
attention-op contract and the residual/1x1-conv structure — and the
final normalization over `embed_dim[-1]` closes the pipeline. -/
def forward_featuresShape (in_chans : ℕ) (embed_dim : List ℕ) (sh : Shape4) :
    Option Shape4 :=
  ((downsampleLayers in_chans embed_dim).foldl
      (fun acc ls => acc.bind (seqShape ls)) (some sh)).bind
    (normShape (embed_dim.getLastD 0))

/-- Shape rule of `nn.Linear(in_f, out_f)` on a (batch, feature)
tensor. -/
def linearShape (in_f out_f : ℕ) (sh : Shape2) : Option Shape2 :=
  if sh.c = in_f then some ⟨sh.n, out_f⟩ else none

/-- Shape rule of the head chosen at line 228: the linear layer when
`num_classes > 0`, otherwise `nn.Identity` (shape preserved). -/
def headShape (embed_dim : List ℕ) (num_classes : ℕ) (sh : Shape2) : Option Shape2 :=
  if 0 < num_classes then linearShape (embed_dim.getLastD 0) num_classes sh
  else some sh

/-- Shape semantics of `forward` (lines 258-263): features, then
`mean([2, 3])` collapsing to (batch, channel), then the head. -/
def forwardShape (in_chans : ℕ) (embed_dim : List ℕ) (num_classes : ℕ)
    (sh : Shape4) : Option Shape2 :=
  (forward_featuresShape in_chans embed_dim sh).bind fun sf =>
    headShape embed_dim num_classes ⟨sf.n, sf.c⟩

/-! ### Stochastic-depth rate schedule (lines 208 and 215) -/

/-- `torch.linspace(0, r, n)`: `n` evenly spaced values from 0 to `r`;
the `i`-th is `r * i / (n - 1)`. (For `n = 1` torch returns the single
start point 0, which the formula also yields, `ℚ` division by zero
being 0.) -/
def linspace (r : ℚ) (n : ℕ) : List ℚ :=
  (List.range n).map fun (i : ℕ) => r * (i : ℚ) / ((n : ℚ) - 1)

/-- Line 208: `dp_rates = [x.item() for x in torch.linspace(0,
drop_path_rate, sum(depth))]`. -/
def dp_rates (drop_path_rate : ℚ) (depth : List ℕ) : List ℚ :=
  linspace drop_path_rate depth.sum

/-- Line 215: the slice `dp_rates[sum(depth[:i]):sum(depth[:i+1])]`
handed to stage `i`; a Python slice `a[l:u]` drops the first `l`
elements and keeps the next `u - l`. -/
def stageSlice (dp : List ℚ) (depth : List ℕ) (i : ℕ) : List ℚ :=
  (dp.drop ((depth.take i).sum)).take ((depth.take (i + 1)).sum - (depth.take i).sum)

/-! ### LayerNorm, channels_first branch (lines 121-130) -/

/-- `x.mean(1, keepdim=True)` on an NCHW tensor: the mean over the
channel axis at each (batch, row, column) position. -/
def chMean {N C H W : ℕ} (x : Fin N → Fin C → Fin H → Fin W → ℚ)
    (b : Fin N) (i : Fin H) (j : Fin W) : ℚ :=
  (∑ ch : Fin C, x b ch i j) / C

/-- `(x - mean).pow(2).mean(1, keepdim=True)`: the (biased) variance
over the channel axis at each (batch, row, column) position. -/
def chVar {N C H W : ℕ} (x : Fin N → Fin C → Fin H → Fin W → ℚ)
    (b : Fin N) (i : Fin H) (j : Fin W) : ℚ :=
  (∑ ch : Fin C, (x b ch i j - chMean x b i j) ^ 2) / C

/-- Lines 124-130, the `channels_first` branch of `LayerNorm.forward`,
with the framework scalar square root kept abstract (`sqrt`):
`mean = x.mean(1, keepdim=True)`;
`var = (x - mean).pow(2).mean(1, keepdim=True)`;
`x = (x - mean) / torch.sqrt(var + eps)`;
`x = self.weight[:, None, None] * x + self.bias[:, None, None]`. -/
def layerNormCF {N C H W : ℕ} (sqrt : ℚ → ℚ) (eps : ℚ)
    (weight bias : Fin C → ℚ) (x : Fin N → Fin C → Fin H → Fin W → ℚ) :
    Fin N → Fin C → Fin H → Fin W → ℚ :=
  fun b ch i j =>
    weight ch * ((x b ch i j - chMean x b i j) / sqrt (chVar x b i j + eps))
      + bias ch

/-- A concrete 2-batch, 2-channel, 1x1 tensor exercising the
channels-first normalization. -/
def lnX : Fin 2 → Fin 2 → Fin 1 → Fin 1 → ℚ :=
  fun b c _ _ => if b = 0 then (if c = 0 then 1 else 5) else 0

/-- A tensor agreeing with `lnX` on the batch-0 channel fiber but
different away from it. -/
def lnY : Fin 2 → Fin 2 → Fin 1 → Fin 1 → ℚ :=
  fun b c _ _ => if b = 0 then (if c = 0 then 1 else 5) else 7

end BBViT

namespace BBViT

/-! ### Theorems -/

/-- C3: attention-variant selection in `BiFormerBlock.__init__`: a
positive `topk` selects the routed `nchwBRA`, `topk = -1` selects the
non-routed `nchwAttentionLePE`, and any other value (zero, or a
negative value other than `-1`) raises the `ValueError`. -/
theorem C3_attn_selection (topk : Int) :
    (0 < topk → selectAttn topk = .ok (.nchwBRA topk))
    ∧ (topk = -1 → selectAttn topk = .ok .nchwAttentionLePE)
    ∧ (topk ≤ 0 ∧ topk ≠ -1 → selectAttn topk = .error "topk should >0 or =-1 !") := by
  refine ⟨fun h => ?_, fun h => ?_, fun h => ?_⟩
  · simp [selectAttn, h]
  · subst h; rfl
  · have h1 : ¬ (0:Int) < topk := not_lt.mpr h.1
    simp [selectAttn, h1, h.2]

/-- Witness for C3 at the concrete budgets 5, -1 and 0. -/
theorem C3_attn_selection_witness :
    ((0:Int) < 5 ∧ selectAttn 5 = .ok (.nchwBRA 5))
    ∧ selectAttn (-1) = .ok .nchwAttentionLePE
    ∧ ((0:Int) ≥ 0 ∧ (0:Int) ≠ -1 ∧ selectAttn 0 = .error "topk should >0 or =-1 !") :=
  ⟨⟨by decide, (C3_attn_selection 5).1 (by decide)⟩,
   (C3_attn_selection (-1)).2.1 rfl,
   ⟨le_refl 0, by decide, (C3_attn_selection 0).2.2 ⟨by decide, by decide⟩⟩⟩

/-- C10 counterexample: with `topk = -2` (the class default for the last
stage) construction does NOT select the routed branch; it hits the
`else` branch and raises the `ValueError`. -/
theorem C10_counterexample :
    classDefaultTopks.getD 3 0 = -2
    ∧ selectAttn (-2) ≠ .ok (.nchwBRA (-2))
    ∧ (∀ v : AttnVariant, selectAttn (-2) ≠ .ok v)
    ∧ selectAttn (-2) = .error "topk should >0 or =-1 !" := by
  refine ⟨rfl, by simp [selectAttn], fun v => ?_, rfl⟩
  cases v <;> simp [selectAttn]

/-- C10 (amended): the class default `topks` ends in `-2`, a value not
explicitly handled by either `if` arm of the selection, so construction
with the class defaults raises `ValueError` at the last stage; the
registered factory's default ends in `-1` and selects the non-routed
variant instead. -/
theorem C10_default_topk_raises :
    classDefaultTopks.getD 3 0 = -2
    ∧ selectAttn (classDefaultTopks.getD 3 0) = .error "topk should >0 or =-1 !"
    ∧ factoryDefaultTopks.getD 3 0 = -1
    ∧ selectAttn (factoryDefaultTopks.getD 3 0) = .ok .nchwAttentionLePE := by
  exact ⟨rfl, rfl, rfl, rfl⟩

/-- C9 counterexample: a convolution module is left completely
untouched by `_init_weights` — in particular a conv whose bias is the
framework default keeps it, contradicting the claim that every
convolution gets a trunc-normal weight and zero bias. -/
theorem C9_counterexample :
    init_weights (.conv2d ⟨.frameworkDefault, some .frameworkDefault⟩)
      = .conv2d ⟨.frameworkDefault, some .frameworkDefault⟩
    ∧ init_weights (.conv2d ⟨.frameworkDefault, some .frameworkDefault⟩)
      ≠ .conv2d ⟨.truncNormal, some (.constVal 0)⟩ := by
  exact ⟨rfl, by decide⟩

/-- C9 (amended): the one-time `_init_weights` pass initializes every
`nn.Linear` weight with a truncated normal and its existing bias with
zero, and every `nn.LayerNorm` with unit scale and zero bias;
convolution modules (and all other kinds) are left with the framework
default initialization. -/
theorem C9_init_weights (p : ModuleParams) :
    init_weights (.linear p) = .linear ⟨.truncNormal, p.bias.map fun _ => .constVal 0⟩
    ∧ init_weights (.layerNorm p) = .layerNorm ⟨.constVal 1, some (.constVal 0)⟩
    ∧ init_weights (.conv2d p) = .conv2d p
    ∧ init_weights .other = .other := by
  exact ⟨rfl, rfl, rfl, rfl⟩

/-- C8: evaluation at the failing input. On a network constructed with
the default widths, the constructor's head (line 228) is a
768-to-1000 linear layer, but `reset_classifier(1000)` passes the whole
`embed_dim` list as `nn.Linear`'s `in_features` and raises a
`TypeError` instead of installing a width-1000 head; the
`num_classes = 0` branch still works and installs the identity. -/
theorem C8_reset_classifier_bug :
    initHead [96, 192, 384, 768] 1000 = .ok (.linear 768 1000)
    ∧ reset_classifier [96, 192, 384, 768] 1000
        = .error "TypeError: empty() argument must be a tuple of ints, not list"
    ∧ reset_classifier [96, 192, 384, 768] 10
        = .error "TypeError: empty() argument must be a tuple of ints, not list"
    ∧ reset_classifier [96, 192, 384, 768] 0 = .ok .identity := by
  exact ⟨rfl, rfl, rfl, rfl⟩

/-- C2: `BiFormerBlock.forward` is exactly the two residual updates
`x = x + drop_path(attn(norm1(x)))` followed by
`x = x + drop_path(mlp(norm2(x)))`, with the MLP being the
conv-expand / GELU / conv-contract `nn.Sequential`; nothing else is
applied. -/
theorem C2_block_forward {T : Type} [Add T] (p : BlockPrims T) (x : T) :
    p.forward x
      = (x + p.drop_path (p.attn (p.norm1 x)))
        + p.drop_path (p.conv_contract (p.gelu (p.conv_expand
            (p.norm2 (x + p.drop_path (p.attn (p.norm1 x))))))) := by
  rfl

/-- C1: `nchwBiFormerSTL.forward` applies downsample then stage for
each of the four stages in order, then the final norm, then the
spatial arithmetic mean (one feature vector per batch element), then
the head — in exactly that order. -/
theorem C1_forward_order (net : NetV) (x : DTensor) :
    net.forward x
      = net.head (meanHW (net.norm
          (net.stages 3 (net.downsample_layers 3
            (net.stages 2 (net.downsample_layers 2
              (net.stages 1 (net.downsample_layers 1
                (net.stages 0 (net.downsample_layers 0 x))))))))))
    ∧ (∀ y : DTensor, (meanHW y).n = y.n ∧ (meanHW y).c = y.c
        ∧ ∀ b ch, (meanHW y).val b ch
            = (∑ i ∈ Finset.range y.h, ∑ j ∈ Finset.range y.w, y.val b ch i j)
                / (y.h * y.w)) := by
  exact ⟨rfl, fun y => ⟨rfl, rfl, fun b ch => rfl⟩⟩

/-- C5: on an input of shape `(b, in_chans, 32p, 32q)` the forward
pass produces shape `(b, num_classes)` when `num_classes > 0`; with
`num_classes = 0` the shape is `(b, embed_dim[-1])` and the head is
the identity, so the output is exactly the pooled feature vector. -/
theorem C5_output_shape (b cin e0 e1 e2 e3 nc p q : ℕ) (hp : 0 < p) (hq : 0 < q) :
    (0 < nc →
      forwardShape cin [e0, e1, e2, e3] nc ⟨b, cin, 32 * p, 32 * q⟩ = some ⟨b, nc⟩)
    ∧ (nc = 0 →
      forwardShape cin [e0, e1, e2, e3] nc ⟨b, cin, 32 * p, 32 * q⟩ = some ⟨b, e3⟩)
    ∧ (∀ net : NetV, net.num_classes = 0 →
        ∀ x, net.forward x = meanHW (net.forward_features x)) := by
  have h4p : 4 ≤ 32 * p := by omega
  have h4q : 4 ≤ 32 * q := by omega
  have e4p : (32 * p - 4) / 4 + 1 = 8 * p := by omega
  have e4q : (32 * q - 4) / 4 + 1 = 8 * q := by omega
  have h2p1 : 2 ≤ 8 * p := by omega
  have h2q1 : 2 ≤ 8 * q := by omega
  have e2p1 : (8 * p - 2) / 2 + 1 = 4 * p := by omega
  have e2q1 : (8 * q - 2) / 2 + 1 = 4 * q := by omega
  have h2p2 : 2 ≤ 4 * p := by omega
  have h2q2 : 2 ≤ 4 * q := by omega
  have e2p2 : (4 * p - 2) / 2 + 1 = 2 * p := by omega
  have e2q2 : (4 * q - 2) / 2 + 1 = 2 * q := by omega
  have h2p3 : 2 ≤ 2 * p := by omega
  have h2q3 : 2 ≤ 2 * q := by omega
  have e2p3 : (2 * p - 2) / 2 + 1 = p := by omega
  have e2q3 : (2 * q - 2) / 2 + 1 = q := by omega
  have hfeat : forward_featuresShape cin [e0, e1, e2, e3] ⟨b, cin, 32 * p, 32 * q⟩
      = some ⟨b, e3, p, q⟩ := by
    simp [forward_featuresShape, downsampleLayers, seqShape, layerShape,
      conv2dShape, normShape, h4p, h4q, e4p, e4q, h2p1, h2q1, e2p1, e2q1,
      h2p2, h2q2, e2p2, e2q2, h2p3, h2q3, e2p3, e2q3, List.range_succ]
  refine ⟨fun hnc => ?_, fun hnc => ?_, fun net hnet x => ?_⟩
  · rw [forwardShape, hfeat]
    simp [headShape, hnc, linearShape]
  · rw [forwardShape, hfeat]
    simp [headShape, hnc]
  · rw [NetV.forward, NetV.head, if_neg (by omega)]
    rfl

/-- Witness for C5 at the spec's own example: default widths, 1000
classes, input shape (1, 3, 224, 224) with 224 = 32 * 7. -/
theorem C5_output_shape_witness :
    0 < 7 ∧ 0 < 1000
    ∧ forwardShape 3 [96, 192, 384, 768] 1000 ⟨1, 3, 32 * 7, 32 * 7⟩
        = some ⟨1, 1000⟩ :=
  ⟨by decide, by decide,
   (C5_output_shape 1 3 96 192 384 768 1000 7 7 (by decide) (by decide)).1
     (by decide)⟩

/-- C7: the stem is conv(4x4, stride 4, `in_chans → embed_dim[0]`)
followed by norm, while each of the three later downsample layers is
norm followed by conv(2x2, stride 2, `embed_dim[i] → embed_dim[i+1]`);
the conv/norm order differs between the stem and the later layers. -/
theorem C7_downsample_structure (c e0 e1 e2 e3 : ℕ) :
    downsampleLayers c [e0, e1, e2, e3]
      = [[.conv2d c e0 4 4, .norm e0],
         [.norm e0, .conv2d e0 e1 2 2],
         [.norm e1, .conv2d e1 e2 2 2],
         [.norm e2, .conv2d e2 e3 2 2]] := by
  rfl

theorem linspace_length (r : ℚ) (n : ℕ) : (linspace r n).length = n := by
  simp [linspace]

theorem linspace_getD (r : ℚ) {n i : ℕ} (h : i < n) :
    (linspace r n).getD i 0 = r * i / ((n : ℚ) - 1) := by
  rw [linspace, List.getD_eq_getElem?_getD, List.getElem?_map,
    List.getElem?_range h]
  rfl

theorem linspace_mono (r : ℚ) (hr : 0 ≤ r) {n i j : ℕ} (hij : i ≤ j)
    (hj : j < n) :
    (linspace r n).getD i 0 ≤ (linspace r n).getD j 0 := by
  rw [linspace_getD r (lt_of_le_of_lt hij hj), linspace_getD r hj]
  have hc : (0 : ℚ) ≤ (n : ℚ) - 1 := by
    have h1 : (1 : ℚ) ≤ (n : ℚ) := by exact_mod_cast Nat.one_le_iff_ne_zero.mpr (by omega)
    linarith
  have hnum : r * (i : ℚ) ≤ r * (j : ℚ) :=
    mul_le_mul_of_nonneg_left (by exact_mod_cast hij) hr
  rw [div_eq_mul_inv, div_eq_mul_inv]
  exact mul_le_mul_of_nonneg_right hnum (inv_nonneg.mpr hc)

theorem slices_partition (l : List ℚ) (d0 d1 d2 d3 : ℕ)
    (hl : l.length = d0 + d1 + d2 + d3) :
    stageSlice l [d0, d1, d2, d3] 0 ++ stageSlice l [d0, d1, d2, d3] 1
      ++ stageSlice l [d0, d1, d2, d3] 2 ++ stageSlice l [d0, d1, d2, d3] 3
      = l := by
  have hs0 : stageSlice l [d0, d1, d2, d3] 0 = l.take d0 := by
    simp [stageSlice]
  have hs1 : stageSlice l [d0, d1, d2, d3] 1 = (l.drop d0).take d1 := by
    have h : d0 + d1 - d0 = d1 := by omega
    calc stageSlice l [d0, d1, d2, d3] 1
        = (l.drop d0).take (d0 + d1 - d0) := rfl
      _ = (l.drop d0).take d1 := by rw [h]
  have hs2 : stageSlice l [d0, d1, d2, d3] 2 = (l.drop (d0 + d1)).take d2 := by
    have h : d0 + (d1 + d2) - (d0 + d1) = d2 := by omega
    calc stageSlice l [d0, d1, d2, d3] 2
        = (l.drop (d0 + d1)).take (d0 + (d1 + d2) - (d0 + d1)) := rfl
      _ = (l.drop (d0 + d1)).take d2 := by rw [h]
  have hs3 : stageSlice l [d0, d1, d2, d3] 3
      = (l.drop (d0 + (d1 + d2))).take d3 := by
    have h : d0 + (d1 + (d2 + d3)) - (d0 + (d1 + d2)) = d3 := by omega
    calc stageSlice l [d0, d1, d2, d3] 3
        = (l.drop (d0 + (d1 + d2))).take
            (d0 + (d1 + (d2 + d3)) - (d0 + (d1 + d2))) := rfl
      _ = (l.drop (d0 + (d1 + d2))).take d3 := by rw [h]
  have hdd1 : (l.drop d0).drop d1 = l.drop (d0 + d1) := by
    rw [List.drop_drop]
  have hdd2 : (l.drop (d0 + d1)).drop d2 = l.drop (d0 + (d1 + d2)) := by
    rw [List.drop_drop]; congr 1
    omega
  have hself : l.take (d0 + (d1 + (d2 + d3))) = l := by
    have h1 : l.length ≤ d0 + (d1 + (d2 + d3)) := by omega
    exact List.take_of_length_le h1
  have hchain : l.take (d0 + (d1 + (d2 + d3)))
      = l.take d0 ++ ((l.drop d0).take d1
        ++ ((l.drop (d0 + d1)).take d2 ++ (l.drop (d0 + (d1 + d2))).take d3)) := by
    rw [List.take_add, List.take_add, hdd1, List.take_add, hdd2]
  rw [hs0, hs1, hs2, hs3, List.append_assoc, List.append_assoc,
    ← hchain, hself]

/-- C4: the stochastic-depth rates form the length-`sum(depth)`
linearly spaced sequence from 0 to `r` (equal increments, first entry
0, last entry `r`), monotonically non-decreasing for a non-negative
rate, and the four per-stage slices taken at cumulative-sum boundaries
concatenate back to exactly the full sequence — no rate skipped,
reused or overlapping. -/
theorem C4_dp_schedule (r : ℚ) (hr : 0 ≤ r) (d0 d1 d2 d3 : ℕ) :
    (dp_rates r [d0, d1, d2, d3]).length = d0 + d1 + d2 + d3
    ∧ (∀ i j, i ≤ j → j < d0 + d1 + d2 + d3 →
        (dp_rates r [d0, d1, d2, d3]).getD i 0
          ≤ (dp_rates r [d0, d1, d2, d3]).getD j 0)
    ∧ (0 < d0 + d1 + d2 + d3 → (dp_rates r [d0, d1, d2, d3]).getD 0 0 = 0)
    ∧ (2 ≤ d0 + d1 + d2 + d3 →
        (dp_rates r [d0, d1, d2, d3]).getD (d0 + d1 + d2 + d3 - 1) 0 = r
        ∧ ∀ i, i + 1 < d0 + d1 + d2 + d3 →
            (dp_rates r [d0, d1, d2, d3]).getD (i + 1) 0
              - (dp_rates r [d0, d1, d2, d3]).getD i 0
              = r / ((d0 + d1 + d2 + d3 : ℕ) - 1 : ℚ))
    ∧ stageSlice (dp_rates r [d0, d1, d2, d3]) [d0, d1, d2, d3] 0
        ++ stageSlice (dp_rates r [d0, d1, d2, d3]) [d0, d1, d2, d3] 1
        ++ stageSlice (dp_rates r [d0, d1, d2, d3]) [d0, d1, d2, d3] 2
        ++ stageSlice (dp_rates r [d0, d1, d2, d3]) [d0, d1, d2, d3] 3
        = dp_rates r [d0, d1, d2, d3] := by
  have hsum : ([d0, d1, d2, d3] : List ℕ).sum = d0 + d1 + d2 + d3 := by
    simp [List.sum_cons]; omega
  refine ⟨?_, ?_, ?_, ?_, ?_⟩
  · rw [dp_rates, linspace_length, hsum]
  · intro i j hij hj
    exact linspace_mono r hr hij (by omega)
  · intro hn
    rw [dp_rates, linspace_getD r (by omega), Nat.cast_zero, mul_zero, zero_div]
  · intro hn
    have hn2 : 2 ≤ ([d0, d1, d2, d3] : List ℕ).sum := by omega
    have hcast : ((([d0, d1, d2, d3] : List ℕ).sum : ℚ) - 1)
        = ((d0 + d1 + d2 + d3 : ℕ) - 1 : ℚ) := by
      rw [hsum]
    constructor
    · rw [dp_rates, ← hsum, linspace_getD r (by omega)]
      have hne : ((([d0, d1, d2, d3] : List ℕ).sum : ℚ) - 1) ≠ 0 := by
        have h2 : (2 : ℚ) ≤ (([d0, d1, d2, d3] : List ℕ).sum : ℚ) := by
          exact_mod_cast hn2
        intro hzero; linarith
      have h1 : (1 : ℕ) ≤ ([d0, d1, d2, d3] : List ℕ).sum := by omega
      have hnm : ((([d0, d1, d2, d3] : List ℕ).sum - 1 : ℕ) : ℚ)
          = (([d0, d1, d2, d3] : List ℕ).sum : ℚ) - 1 := by
        push_cast [h1]
        try ring
      rw [hnm, mul_div_assoc, div_self hne, mul_one]
    · intro i hi
      rw [dp_rates, linspace_getD r (by omega), linspace_getD r (by omega),
        div_sub_div_same, ← hcast]
      congr 1
      push_cast
      ring
  · exact slices_partition _ d0 d1 d2 d3
      (by rw [dp_rates, linspace_length]; exact hsum)

/-- Witness for C4 at the default configuration `depth = [2, 2, 6, 2]`
with rate 1/5. -/
theorem C4_dp_schedule_witness :
    (0 : ℚ) ≤ 1 / 5 ∧ (dp_rates (1 / 5) [2, 2, 6, 2]).length = 2 + 2 + 6 + 2 :=
  ⟨by norm_num, (C4_dp_schedule (1 / 5) (by norm_num) 2 2 6 2).1⟩

/-- C6: the channels-first `LayerNorm` normalizes each entry with the
mean and biased variance taken over the channel axis only (the output
at a position depends only on the input's channel fiber at that batch
and spatial position), as `(x - mean) / sqrt(var + eps)` with `eps`
inside the square root, then applies the per-channel scale and shift
broadcast over both spatial axes. -/
theorem C6_layernorm_channels_first {N C H W : ℕ} (sqrt : ℚ → ℚ) (eps : ℚ)
    (weight bias : Fin C → ℚ) (x : Fin N → Fin C → Fin H → Fin W → ℚ)
    (b : Fin N) (ch : Fin C) (i : Fin H) (j : Fin W) :
    layerNormCF sqrt eps weight bias x b ch i j
      = weight ch * ((x b ch i j - (∑ c2 : Fin C, x b c2 i j) / C)
          / sqrt ((∑ c2 : Fin C,
              (x b c2 i j - (∑ c3 : Fin C, x b c3 i j) / C) ^ 2) / C + eps))
        + bias ch
    ∧ (∀ y : Fin N → Fin C → Fin H → Fin W → ℚ,
        (∀ c2 : Fin C, y b c2 i j = x b c2 i j) →
        layerNormCF sqrt eps weight bias y b ch i j
          = layerNormCF sqrt eps weight bias x b ch i j) := by
  constructor
  · rfl
  · intro y hy
    have hm : chMean y b i j = chMean x b i j := by
      unfold chMean
      congr 1
      exact Finset.sum_congr rfl fun c2 _ => hy c2
    have hv : chVar y b i j = chVar x b i j := by
      unfold chVar
      rw [hm]
      congr 1
      exact Finset.sum_congr rfl fun c2 _ => by rw [hy c2]
    unfold layerNormCF
    rw [hy ch, hm, hv]

/-- Witness for C6: a concrete 2-channel fiber (values 1 and 5, mean 3,
biased variance 4), `sqrt` instantiated with the identity, `eps = 0`,
scale 2 and shift 3; and a second tensor agreeing on that fiber but not
elsewhere yields the same output there. -/
theorem C6_layernorm_witness :
    (∀ c2 : Fin 2, lnY 0 c2 0 0 = lnX 0 c2 0 0)
    ∧ layerNormCF (id : ℚ → ℚ) 0 (fun _ => 2) (fun _ => 3) lnY 0 0 0 0
        = layerNormCF (id : ℚ → ℚ) 0 (fun _ => 2) (fun _ => 3) lnX 0 0 0 0
    ∧ layerNormCF (id : ℚ → ℚ) 0 (fun _ => 2) (fun _ => 3) lnX 0 0 0 0 = 2 :=
  ⟨fun c2 => by fin_cases c2 <;> rfl,
   (C6_layernorm_channels_first (id : ℚ → ℚ) 0 (fun _ => 2) (fun _ => 3)
      lnX 0 0 0 0).2 lnY (fun c2 => by fin_cases c2 <;> rfl),
   by norm_num [layerNormCF, chMean, chVar, lnX, Fin.sum_univ_two]⟩

end BBViT
